import Mathlib

/-!
Verification of the TechLogistics data-cleaning pipeline: a shallow
embedding of `src/data_cleaning.py` (pandas/numpy) into Lean 4.

Modelling conventions:
* A pandas numeric cell is `Option ℚ`: `none` models `NaN`/missing, `some v`
  models the numeric value `v` (floats idealised as rationals).
* pandas/numpy comparisons against `NaN` yield `False`; arithmetic involving
  `NaN` yields `NaN`.  The `opt*` helpers below implement exactly this algebra.
* numpy scalar/array true division by zero emits a `RuntimeWarning` and
  produces `NaN` (it does not raise); `npDiv` returns `none` in that case.
* `Series.quantile`/`Series.median` drop `NaN`s and use linear interpolation
  (the median of an even-length sample is the mean of the two middle values).
-/

namespace TechLogistics

/-- NaN-propagating addition (pandas semantics: `x + NaN = NaN`). -/
def optAdd (a b : Option ℚ) : Option ℚ :=
  match a, b with
  | some x, some y => some (x + y)
  | _, _ => none

/-- NaN-propagating subtraction. -/
def optSub (a b : Option ℚ) : Option ℚ :=
  match a, b with
  | some x, some y => some (x - y)
  | _, _ => none

/-- NaN-propagating multiplication. -/
def optMul (a b : Option ℚ) : Option ℚ :=
  match a, b with
  | some x, some y => some (x * y)
  | _, _ => none

/-- Embeds `Series.fillna(0)` applied to one cell. -/
def fillna0 (a : Option ℚ) : ℚ := a.getD 0

/-- numpy true division: division by zero yields `NaN` (with a
`RuntimeWarning`), never a Python `ZeroDivisionError`.  In the code paths
embedded below the numerator is itself `0` whenever the denominator is, so the
`NaN` (rather than `±inf`) branch is the one that matters. -/
def npDiv (a b : ℚ) : Option ℚ :=
  if b = 0 then none else some (a / b)

/-- Embeds `pd.Series.quantile(q)` on an already ascending-sorted, NaN-free sample:
linear interpolation at position `q * (n - 1)`. -/
def quantileSorted (s : List ℚ) (q : ℚ) : ℚ :=
  let n := s.length
  let pos : ℚ := q * ((n : ℚ) - 1)
  let i : ℕ := (Int.floor pos).toNat
  let g : ℚ := pos - (i : ℚ)
  s.getD i 0 + g * (s.getD (i + 1) (s.getD i 0) - s.getD i 0)

/-- Embeds `pd.Series.median()` of the non-null values: `NaN` on an empty sample,
middle element for odd length, mean of the two middle elements for even
length. -/
def pandasMedian (xs : List ℚ) : Option ℚ :=
  let s := xs.insertionSort (· ≤ ·)
  let n := s.length
  if n = 0 then none
  else if n % 2 = 1 then some (s.getD (n / 2) 0)
  else some ((s.getD (n / 2 - 1) 0 + s.getD (n / 2) 0) / 2)

/-- Embeds `detect_outliers_iqr` (data_cleaning.py lines 135-158) on a numeric
(float/int) series.  Quantiles are taken over the non-null values (pandas
drops `NaN`s); a `NaN` cell is never flagged (`NaN < x` is `False` in
pandas); when the series has no non-null value both quantiles are `NaN`,
giving `NaN` bounds and an all-`False` mask.  The dtype guard of line 146
(non-numeric series) is outside this embedding, which only receives numeric
series. -/
def detect_outliers_iqr (series : List (Option ℚ)) (multiplier : ℚ) :
    List Bool × Option ℚ × Option ℚ :=
  let vals := series.filterMap id
  if vals.isEmpty then
    (series.map (fun _ => false), none, none)
  else
    let s := vals.insertionSort (· ≤ ·)
    let q1 := quantileSorted s (1 / 4)
    let q3 := quantileSorted s (3 / 4)
    let iqr := q3 - q1
    let lower_bound := q1 - multiplier * iqr
    let upper_bound := q3 + multiplier * iqr
    (series.map (fun x =>
        match x with
        | none => false
        | some v => decide (v < lower_bound) || decide (v > upper_bound)),
      some lower_bound, some upper_bound)

/-- Embeds `df.duplicated()` (keep='first'): mark a row iff an equal row occurs
earlier.  `seen` accumulates the rows already passed. -/
def duplicatedMaskAux [DecidableEq α] (seen : List α) : List α → List Bool
  | [] => []
  | a :: tl => (decide (a ∈ seen)) :: duplicatedMaskAux (a :: seen) tl

/-- Embeds `df.duplicated()` starting from an empty history. -/
def duplicatedMask [DecidableEq α] (rows : List α) : List Bool :=
  duplicatedMaskAux [] rows

/-- Embeds `df.duplicated().sum()`. -/
def duplicatedCount [DecidableEq α] (rows : List α) : ℕ :=
  (duplicatedMask rows).count true

/-- Embeds `df.drop_duplicates()` (keep='first'): keep the first occurrence of every
row, preserving order. -/
def dedupFirst [DecidableEq α] : List α → List α
  | [] => []
  | a :: tl => a :: dedupFirst (tl.filter (fun x => x ≠ a))
  termination_by l => l.length
  decreasing_by
    simp only [List.length_cons]
    exact Nat.lt_succ_of_le (List.length_filter_le _ _)

/-- Python `round(x, 2)` idealised over ℚ: round-half-to-even at two decimal
places (binary floating-point representation artifacts are abstracted away). -/
def roundHalfEven (q : ℚ) : ℤ :=
  let f := Int.floor q
  let r := q - (f : ℚ)
  if r < 1 / 2 then f
  else if r > 1 / 2 then f + 1
  else if f % 2 = 0 then f else f + 1

/-- Embeds `round(x, 2)` over ℚ. -/
def round2 (q : ℚ) : ℚ := (roundHalfEven (100 * q) : ℚ) / 100

/-- A table: a fixed column count and one list of cells per row (pandas
`DataFrame` with `shape = (rows.length, ncols)`).  Rectangularity
(`r.length = ncols` for every row) is stated as a hypothesis where needed. -/
abbrev Table := List (List (Option ℚ))

/-- Embeds `df.isnull().sum()` for column `j`: how many rows have a null cell there. -/
def nullsInCol (rows : Table) (j : ℕ) : ℕ :=
  rows.countP (fun r => (r.getD j (some 0)).isNone)

/-- The health record returned by `calculate_health_score` (the
`dataset_name` field, a pass-through string, is omitted).  Score fields are
`Option ℚ` because on a zero-row table the numpy divisions produce `NaN`. -/
structure HealthRecord where
  total_registros : ℕ
  total_columnas : ℕ
  total_celdas : ℕ
  celdas_nulas : ℕ
  registros_duplicados : ℕ
  completitud_pct : Option ℚ
  unicidad_pct : Option ℚ
  validez_pct : ℚ
  health_score : Option ℚ
  nulidad_por_columna : List (Option ℚ)
  columnas_con_nulos : List (ℕ × ℕ)
  deriving DecidableEq, Repr

/-- Embeds `calculate_health_score` (data_cleaning.py lines 87-132).
`null_cells = df.isnull().sum().sum()` is a per-column sum totalled; the
intermediate results are numpy `int64` scalars, so the divisions at lines
104 and 107 follow numpy semantics (`npDiv`): on a zero-row table they
yield `NaN` silently instead of raising `ZeroDivisionError`. -/
def calculate_health_score (ncols : ℕ) (rows : Table) : HealthRecord :=
  let total_cells := rows.length * ncols
  let null_cells := ((List.range ncols).map (nullsInCol rows)).sum
  let duplicates := duplicatedCount rows
  let completitud :=
    (npDiv ((total_cells : ℚ) - (null_cells : ℚ)) (total_cells : ℚ)).map (· * 100)
  let unicidad :=
    (npDiv ((rows.length : ℚ) - (duplicates : ℚ)) (rows.length : ℚ)).map (· * 100)
  let validez : ℚ := 100
  let health_score :=
    optAdd (optAdd (optMul completitud (some 0.4)) (optMul unicidad (some 0.3)))
      (some (validez * 0.3))
  { total_registros := rows.length
    total_columnas := ncols
    total_celdas := total_cells
    celdas_nulas := null_cells
    registros_duplicados := duplicates
    completitud_pct := completitud.map round2
    unicidad_pct := unicidad.map round2
    validez_pct := round2 validez
    health_score := health_score.map round2
    nulidad_por_columna :=
      (List.range ncols).map (fun j =>
        ((npDiv (nullsInCol rows j : ℚ) (rows.length : ℚ)).map (· * 100)).map round2)
    columnas_con_nulos :=
      (List.range ncols).filterMap (fun j =>
        if 0 < nullsInCol rows j then some (j, nullsInCol rows j) else none) }

/-! ## Inventory cleaner: lead-time parsing and two-stage imputation
(`clean_inventario`, data_cleaning.py lines 232-254).  Python strings are
modelled as `List Char`. -/

/-- Python `str.lower()` (ASCII part; letters outside A-Z, e.g. `'í'`, are
left unchanged, as they are by `Char.toLower`). -/
def pyLower (cs : List Char) : List Char := cs.map Char.toLower

/-- The whitespace recognised by Python `str.strip()` (ASCII part). -/
def pyIsSpace (c : Char) : Bool :=
  c = ' ' || c = '\t' || c = '\n' || c = '\r' || c = '\x0b' || c = '\x0c'

/-- Python `str.strip()`. -/
def pyStrip (cs : List Char) : List Char :=
  ((cs.dropWhile pyIsSpace).reverse.dropWhile pyIsSpace).reverse

/-- Numeric value of a list of decimal digit characters. -/
def natOfDigits (ds : List Char) : ℕ :=
  ds.foldl (fun n c => 10 * n + (c.toNat - '0'.toNat)) 0

/-- Embeds `re.findall(r'\d+', s)`: the maximal runs of decimal digits, in order,
each read as a number (the code applies `int` to the first two). -/
def digitRuns : List Char → List ℕ
  | [] => []
  | c :: tl =>
    if c.isDigit then
      natOfDigits (c :: tl.takeWhile Char.isDigit) ::
        digitRuns (tl.dropWhile Char.isDigit)
    else
      digitRuns tl
  termination_by l => l.length
  decreasing_by
    · simp only [List.length_cons]
      exact Nat.lt_succ_of_le (List.Sublist.length_le (List.dropWhile_sublist _))
    · simp

/-- Split an optional leading `'-'`/`'+'` sign off a character list. -/
def pySign (t : List Char) : Bool × List Char :=
  match t with
  | [] => (false, [])
  | c :: r =>
    if c = '-' then (true, r)
    else if c = '+' then (false, r)
    else (false, c :: r)

/-- Python `float(s)` on a decimal literal: optional surrounding whitespace,
optional sign, integer digits and/or a fractional part, optional decimal
exponent.  Strings outside this grammar give `none`; the special values
`float('nan')`/`float('inf')` are folded into `none` as well (a parsed `NaN`
is immediately a missing value for the surrounding pandas code, and no
infinity literal occurs in lead-time data). -/
def pyFloat (cs : List Char) : Option ℚ :=
  let t := pyStrip cs
  let sg := pySign t
  let t1 := sg.2
  let ip := t1.takeWhile Char.isDigit
  let r1 := t1.dropWhile Char.isDigit
  let fr :=
    match r1 with
    | '.' :: r => (r.takeWhile Char.isDigit, r.dropWhile Char.isDigit)
    | r => (([] : List Char), r)
  let fp := fr.1
  if ip.isEmpty ∧ fp.isEmpty then none
  else
    let mant : ℚ :=
      (natOfDigits ip : ℚ) + (natOfDigits fp : ℚ) / (10 : ℚ) ^ fp.length
    let signed : ℚ := if sg.1 then -mant else mant
    match fr.2 with
    | [] => some signed
    | e :: r3 =>
      if e = 'e' ∨ e = 'E' then
        let esg := pySign r3
        if esg.2.isEmpty ∨ ¬(esg.2.all Char.isDigit) then none
        else if esg.1 then some (signed / (10 : ℚ) ^ natOfDigits esg.2)
        else some (signed * (10 : ℚ) ^ natOfDigits esg.2)
      else none

/-- Embeds `parse_lead_time` (data_cleaning.py lines 232-246).  The input cell is
`none` for `NaN` (`pd.isna`), otherwise the raw string.  Note that the
`['nan', 'none', '']` membership test is applied to the lowered but
*unstripped* string, exactly as in the source. -/
def parse_lead_time (val : Option (List Char)) : Option ℚ :=
  match val with
  | none => none
  | some cs =>
    if pyLower cs = ['n', 'a', 'n'] ∨ pyLower cs = ['n', 'o', 'n', 'e'] ∨
        pyLower cs = [] then
      none
    else
      let val_str := pyStrip (pyLower cs)
      if val_str = ['i', 'n', 'm', 'e', 'd', 'i', 'a', 't', 'o'] then some 1
      else if val_str.contains '-' then
        let nums := digitRuns val_str
        if 2 ≤ nums.length then
          some (((nums.getD 0 0 : ℚ) + (nums.getD 1 0 : ℚ)) / 2)
        else pyFloat val_str
      else pyFloat val_str

/-- Per-category median of the non-null values
(`df.groupby('Categoria')['Lead_Time_Dias'].transform('median')` evaluated at
category `c`). -/
def catMedian [DecidableEq κ] (rows : List (κ × Option ℚ)) (c : κ) : Option ℚ :=
  pandasMedian ((rows.filter (fun p => p.1 = c)).filterMap Prod.snd)

/-- The two `fillna` stages of lines 251-254: first the per-category median
(computed from the column before any imputation, as `transform` is), then the
global median of the column *after* the first fill. -/
def imputeTwoStage [DecidableEq κ] (rows : List (κ × Option ℚ)) :
    List (κ × Option ℚ) :=
  let stage1 := rows.map (fun p => (p.1, p.2 <|> catMedian rows p.1))
  let globalMed := pandasMedian (stage1.filterMap Prod.snd)
  stage1.map (fun p => (p.1, p.2 <|> globalMed))

/-- One inventory row, restricted to the columns the lead-time passes touch:
the (already normalised) category and the raw `Lead_Time_Dias` text. -/
structure InvLtRow where
  cat : ℤ
  lt : Option (List Char)
  deriving DecidableEq, Repr

/-- The lead-time portion of `clean_inventario` (lines 206-254): exact-row
deduplication (pass 1), then parse, then the two-stage median imputation. -/
def clean_inventario_lead_time (df : List InvLtRow) : List (ℤ × Option ℚ) :=
  imputeTwoStage ((dedupFirst df).map (fun r => (r.cat, parse_lead_time r.lt)))

/-! ## Transaction cleaner: delivery-time pass
(`clean_transacciones`, data_cleaning.py lines 384-403). -/

/-- Pass 5 of `clean_transacciones` on the `Tiempo_Entrega_Real` column:
first the outlier mask is computed (line 386, multiplier 3) from the
still-uncapped column, then every value above 90 is set to 90 (line 397).
Returns (capped column, outlier-flag column); the original values are kept
in `Tiempo_Entrega_Original`, i.e. the input itself. -/
def clean_transacciones_delivery (times : List (Option ℚ)) :
    List (Option ℚ) × List Bool :=
  let mask := (detect_outliers_iqr times 3).1
  let capped := times.map (fun t =>
    match t with
    | some v => if v > 90 then some 90 else some v
    | none => none)
  (capped, mask)

/-! ## Feedback cleaner: deduplication, age and segment passes
(`clean_feedback`, data_cleaning.py lines 450-460, 477-501, 543-558).
The passes for `Ticket_Soporte_Abierto`, `Recomienda_Marca`,
`Rating_Producto` and `Satisfaccion_NPS` act on disjoint columns and are
not needed by any claim about ages. -/

/-- One raw feedback row, restricted to the columns the embedded passes
read: the `Feedback_ID` key, the customer age, and an opaque remainder
(`payload`) that only participates in exact-row equality. -/
structure FbRow where
  fid : ℤ
  edad : Option ℚ
  payload : ℤ
  deriving DecidableEq, Repr

/-- The age segments produced by `segment_age` (lines 544-556). -/
inductive Segmento where
  | s18_24 | s25_34 | s35_44 | s45_54 | s55_64 | s65plus
  deriving DecidableEq, Repr

/-- Embeds `segment_age` (lines 544-556).  A `NaN` age fails every `<` comparison in
Python and therefore falls through to the `'65+'` branch. -/
def segment_age (age : Option ℚ) : Segmento :=
  match age with
  | none => Segmento.s65plus
  | some a =>
    if a < 25 then Segmento.s18_24
    else if a < 35 then Segmento.s25_34
    else if a < 45 then Segmento.s35_44
    else if a < 55 then Segmento.s45_54
    else if a < 65 then Segmento.s55_64
    else Segmento.s65plus

/-- Embeds `(df_clean['Edad_Cliente'] < 18) | (df_clean['Edad_Cliente'] > 100)` for
one cell; both comparisons are `False` on `NaN`. -/
def edadInvalida (edad : Option ℚ) : Bool :=
  match edad with
  | none => false
  | some a => decide (a < 18) || decide (a > 100)

/-- A cleaned feedback row: shadow original, invalid flag, (possibly
imputed) age, and age segment. -/
structure FbRowClean where
  fid : ℤ
  edadOriginal : Option ℚ
  edadInvalidaFlag : Bool
  edad : Option ℚ
  segmento : Segmento
  payload : ℤ
  deriving DecidableEq, Repr

/-- Embeds `df.drop_duplicates(subset=['Feedback_ID'], keep='first')`: keep a row
iff its `Feedback_ID` has not occurred earlier. -/
def dedupByFidAux (seen : List ℤ) : List FbRow → List FbRow
  | [] => []
  | r :: tl =>
    if r.fid ∈ seen then dedupByFidAux seen tl
    else r :: dedupByFidAux (r.fid :: seen) tl

/-- Embeds `df.drop_duplicates(subset=['Feedback_ID'], keep='first')`. -/
def dedupByFid (df : List FbRow) : List FbRow :=
  dedupByFidAux [] df

/-- The feedback-cleaner passes that involve the age column
(data_cleaning.py lines 441-501 and 543-558): exact-row dedup, dedup by
`Feedback_ID`, shadow copy + invalid flag, imputation of flagged ages with
the median of the in-range ages (`NaN`, i.e. `none`, when no age is in
range — pandas' median of an empty selection), and the age-segment bucket. -/
def clean_feedback_ages (df : List FbRow) : List FbRowClean :=
  let d1 := dedupByFid (dedupFirst df)
  let mediana_edad :=
    pandasMedian ((d1.filter (fun r =>
      match r.edad with
      | some a => decide (18 ≤ a) && decide (a ≤ 100)
      | none => false)).filterMap FbRow.edad)
  d1.map (fun r =>
    let flag := edadInvalida r.edad
    let newEdad := if flag then mediana_edad else r.edad
    { fid := r.fid
      edadOriginal := r.edad
      edadInvalidaFlag := flag
      edad := newEdad
      segmento := segment_age newEdad
      payload := r.payload })

/-! ## Integrator (`merge_datasets`, data_cleaning.py lines 569-623).
Join keys are modelled as integers; all non-key columns of each table are
collapsed into an opaque `payload` that only matters for row identity. -/

/-- An inventory row as seen by the Integrator: its `SKU_ID` and the rest. -/
structure InvRow where
  sku : ℤ
  payload : ℤ
  deriving DecidableEq, Repr

/-- A transaction row as seen by the Integrator. -/
structure TransRow where
  tid : ℤ
  sku : ℤ
  payload : ℤ
  deriving DecidableEq, Repr

/-- A feedback row as seen by the Integrator: its `Transaccion_ID` key. -/
structure FeedRow where
  fid : ℤ
  tid : ℤ
  payload : ℤ
  deriving DecidableEq, Repr

/-- One row of the integrated table: the transaction, its inventory match
(`none` and `skuFantasma = true` when the SKU is unknown — pandas'
`_merge_inv == 'left_only'`), and its feedback match. -/
structure MergedRow where
  t : TransRow
  inv : Option InvRow
  skuFantasma : Bool
  fb : Option FeedRow
  deriving DecidableEq, Repr

/-- Embeds `left.merge(right, on=key, how='left')` row expansion: a left row with
no key match yields one row with null right fields; a left row with `m`
matches yields `m` rows. -/
def leftJoin [DecidableEq β] (left : List α) (right : List γ)
    (lk : α → β) (rk : γ → β) : List (α × Option γ) :=
  left.flatMap (fun a =>
    let ms := right.filter (fun c => rk c = lk a)
    if ms.isEmpty then [(a, none)] else ms.map (fun c => (a, some c)))

/-- Embeds `merge_datasets` (lines 569-623): left-join Transactions→Inventory on
`SKU_ID` (ghost flag from the merge indicator), then left-join the result
→Feedback on `Transaccion_ID`.  Returns the integrated table and
`df_skus_fantasma` (the transaction rows whose `SKU_ID` is in the ghost
set); the `merge_stats` counters are logging-only and omitted. -/
def merge_datasets (df_inventario : List InvRow) (df_transacciones : List TransRow)
    (df_feedback : List FeedRow) : List MergedRow × List TransRow :=
  let m1 := leftJoin df_transacciones df_inventario TransRow.sku InvRow.sku
  let skus_fantasma :=
    dedupFirst ((m1.filter (fun p => p.2.isNone)).map (fun p => p.1.sku))
  let m2 := leftJoin m1 df_feedback (fun p => p.1.tid) FeedRow.tid
  let merged := m2.map (fun q =>
    { t := q.1.1
      inv := q.1.2
      skuFantasma := q.1.2.isNone
      fb := q.2 })
  let fantasmas := df_transacciones.filter (fun t => t.sku ∈ skus_fantasma)
  (merged, fantasmas)

/-! ## Feature Deriver (`create_derived_features`, data_cleaning.py
lines 626-694). -/

/-- One row of the integrated table, restricted to the columns the Feature
Deriver reads.  Every numeric field is nullable: prices/quantities come from
transactions (never imputed), unit cost and lead time are null on ghost
rows, shipping cost can remain null only in degenerate tables. -/
structure IntRow where
  precio : Option ℚ
  cantidad : Option ℚ
  costoUnit : Option ℚ
  costoEnvio : Option ℚ
  fantasma : Bool
  leadTime : Option ℚ
  tiempoEntrega : Option ℚ
  deriving DecidableEq, Repr

/-- Embeds `categorize_delivery` result values (lines 676-688). -/
inductive Rendimiento where
  | sinDatos | muyAdelantado | adelantado | aTiempo | leveRetraso | retrasoCritico
  deriving DecidableEq, Repr

/-- Embeds `categorize_delivery` (lines 676-688). -/
def categorize_delivery (brecha : Option ℚ) : Rendimiento :=
  match brecha with
  | none => Rendimiento.sinDatos
  | some b =>
    if b ≤ -3 then Rendimiento.muyAdelantado
    else if b < 0 then Rendimiento.adelantado
    else if b = 0 then Rendimiento.aTiempo
    else if b ≤ 3 then Rendimiento.leveRetraso
    else Rendimiento.retrasoCritico

/-- The derived features of one row. -/
structure DerivedRow where
  base : IntRow
  ingresoTotal : Option ℚ
  margenUnitario : Option ℚ
  costoTotal : Option ℚ
  margenTotal : Option ℚ
  margenPorcentaje : Option ℚ
  margenNegativo : Bool
  brechaEntrega : Option ℚ
  rendimientoEntrega : Rendimiento
  deriving DecidableEq, Repr

/-- Embeds `create_derived_features` (lines 626-694), per row:
* `Ingreso_Total = Precio_Venta_Final * Cantidad_Vendida`;
* `Margen_Unitario = np.where(¬fantasma, precio − costoUnit.fillna(0), NaN)`;
* `Costo_Total = costoUnit.fillna(0) * cantidad + costoEnvio.fillna(0)`
  (note: `cantidad` itself is *not* `fillna`d);
* `Margen_Total = Ingreso_Total − Costo_Total`;
* `Margen_Porcentaje = np.where(Ingreso_Total > 0, Margen_Total/Ingreso_Total*100, 0)`
  — the `NaN > 0` comparison is `False`, so null or non-positive revenue
  lands in the `0` branch;
* `Margen_Negativo = Margen_Total < 0` (`False` on `NaN`);
* `Brecha_Entrega = np.where(leadTime.notna(), tiempoEntrega − leadTime, NaN)`;
* `Rendimiento_Entrega = categorize_delivery(Brecha_Entrega)`. -/
def create_derived_features (r : IntRow) : DerivedRow :=
  let ingreso := optMul r.precio r.cantidad
  let margenUnit :=
    if r.fantasma then none
    else optSub r.precio (some (fillna0 r.costoUnit))
  let costoTotal :=
    optAdd (optMul (some (fillna0 r.costoUnit)) r.cantidad)
      (some (fillna0 r.costoEnvio))
  let margenTotal := optSub ingreso costoTotal
  let margenPct :=
    match ingreso with
    | some i =>
      if i > 0 then
        match margenTotal with
        | some m => some (m / i * 100)
        | none => none
      else some 0
    | none => some 0
  let margenNeg :=
    match margenTotal with
    | some m => decide (m < 0)
    | none => false
  let brecha :=
    match r.leadTime with
    | none => none
    | some l => r.tiempoEntrega.map (fun te => te - l)
  { base := r
    ingresoTotal := ingreso
    margenUnitario := margenUnit
    costoTotal := costoTotal
    margenTotal := margenTotal
    margenPorcentaje := margenPct
    margenNegativo := margenNeg
    brechaEntrega := brecha
    rendimientoEntrega := categorize_delivery brecha }

/-! ## Store-level model of the cleaners' frame behaviour.

Each Python cleaner receives a *reference* to the caller's DataFrame,
immediately takes a deep copy (`df_clean = df.copy()`, lines 197, 328, 441,
638) and then mutates only the copy.  That is modelled with an explicit
object store: a list of Python values, references are indices, `df.copy()`
allocates a fresh cell, and all subsequent column writes go through the
fresh reference.  The frame claim is then a real statement: the cell the
caller's reference points at is unchanged. -/

/-- One raw transaction row as the store model sees it: the
`Tiempo_Entrega_Real` column plus an opaque remainder used for exact-row
deduplication. -/
structure TrRow where
  tiempo : Option ℚ
  payload : ℤ
  deriving DecidableEq, Repr

/-- The cleaned-transactions value produced by the embedded passes: the
capped delivery column and the outlier-flag column. -/
abbrev TrCleanVal := List (Option ℚ) × List Bool

/-- The embedded passes of `clean_transacciones` that the claims touch:
exact-row dedup (pass 1), then the delivery-time pass (pass 5). -/
def clean_transacciones_pure (df : List TrRow) : TrCleanVal :=
  clean_transacciones_delivery ((dedupFirst df).map TrRow.tiempo)

/-- A Python heap object: one of the table shapes the four functions read
or build.  `pyNone` is the out-of-range default. -/
inductive PyVal where
  | invRaw : List InvLtRow → PyVal
  | invClean : List (ℤ × Option ℚ) → PyVal
  | trRaw : List TrRow → PyVal
  | trClean : TrCleanVal → PyVal
  | fbRaw : List FbRow → PyVal
  | fbClean : List FbRowClean → PyVal
  | intRaw : List IntRow → PyVal
  | intClean : List DerivedRow → PyVal
  | pyNone : PyVal
  deriving DecidableEq

/-- The object store. -/
abbrev Store := List PyVal

/-- Dereference. -/
def hget (s : Store) (r : ℕ) : PyVal := s.getD r PyVal.pyNone

/-- Allocate a fresh object (`df.copy()` and every constructor): the new
object lives at a fresh reference, the end of the store. -/
def halloc (s : Store) (v : PyVal) : Store × ℕ := (s ++ [v], s.length)

/-- Write through a reference (in-place column assignment). -/
def hset (s : Store) (r : ℕ) (v : PyVal) : Store := s.set r v

/-- Embeds `clean_inventario` at store level (line 197 onwards): copy, then every
mutation targets the copy.  The cleaning passes embedded here are the
lead-time ones (`clean_inventario_lead_time`). -/
def clean_inventario_st (s : Store) (r : ℕ) : Store × ℕ :=
  let (s1, r2) := halloc s (hget s r)
  let s2 :=
    match hget s r with
    | PyVal.invRaw t => hset s1 r2 (PyVal.invClean (clean_inventario_lead_time t))
    | _ => s1
  (s2, r2)

/-- Embeds `clean_transacciones` at store level (line 328 onwards). -/
def clean_transacciones_st (s : Store) (r : ℕ) : Store × ℕ :=
  let (s1, r2) := halloc s (hget s r)
  let s2 :=
    match hget s r with
    | PyVal.trRaw t => hset s1 r2 (PyVal.trClean (clean_transacciones_pure t))
    | _ => s1
  (s2, r2)

/-- Embeds `clean_feedback` at store level (line 441 onwards). -/
def clean_feedback_st (s : Store) (r : ℕ) : Store × ℕ :=
  let (s1, r2) := halloc s (hget s r)
  let s2 :=
    match hget s r with
    | PyVal.fbRaw t => hset s1 r2 (PyVal.fbClean (clean_feedback_ages t))
    | _ => s1
  (s2, r2)

/-- Embeds `create_derived_features` at store level (line 638 onwards). -/
def create_derived_features_st (s : Store) (r : ℕ) : Store × ℕ :=
  let (s1, r2) := halloc s (hget s r)
  let s2 :=
    match hget s r with
    | PyVal.intRaw t => hset s1 r2 (PyVal.intClean (t.map create_derived_features))
    | _ => s1
  (s2, r2)

/-! ## Claim-side (specification) expressions, written after the spec's
wording, to be compared with the embedded code. -/

/-- The 25th percentile of a numeric series (spec wording for `Q1`). -/
def seriesQ1 (xs : List ℚ) : ℚ :=
  quantileSorted (xs.insertionSort (· ≤ ·)) (1 / 4)

/-- The 75th percentile of a numeric series (spec wording for `Q3`). -/
def seriesQ3 (xs : List ℚ) : ℚ :=
  quantileSorted (xs.insertionSort (· ≤ ·)) (3 / 4)

/-- Total number of null cells of a table, counted row-wise (the spec's
"total cells − null cells" numerator counts over the whole table; the code
sums per column — the two agree on rectangular tables). -/
def totalNullCells (rows : Table) : ℕ :=
  (rows.map (fun r => r.countP (fun c => c.isNone))).sum

/-- The global median used by the second imputation stage: the median of
the lead-time column *after* the per-category fill, as in line 254. -/
def stage1GlobalMedian (parsed : List (ℤ × Option ℚ)) : Option ℚ :=
  pandasMedian
    ((parsed.map (fun p => (p.1, p.2 <|> catMedian parsed p.1))).filterMap Prod.snd)

/-- Spec wording of the imputation policy for one parsed lead-time cell:
keep a present value; otherwise the per-category median; otherwise the
global median. -/
def imputedValue (parsed : List (ℤ × Option ℚ)) (c : ℤ) (v : Option ℚ) :
    Option ℚ :=
  match v with
  | some x => some x
  | none =>
    match catMedian parsed c with
    | some m => some m
    | none => stage1GlobalMedian parsed

/-! ## Helper lemmas -/

lemma getD_replicate {c d : ℚ} {n i : ℕ} (h : i < n) :
    (List.replicate n c).getD i d = c := by
  rw [List.getD_eq_getElem _ _ (by simpa using h)]
  exact List.getElem_replicate _ _

lemma insertionSort_replicate (n : ℕ) (c : ℚ) :
    (List.replicate n c).insertionSort (· ≤ ·) = List.replicate n c :=
  List.perm_replicate.mp (List.perm_insertionSort _ _)

lemma quantileSorted_replicate {n : ℕ} (hn : n ≠ 0) (c : ℚ) {q : ℚ}
    (_hq0 : 0 ≤ q) (hq1 : q ≤ 1) :
    quantileSorted (List.replicate n c) q = c := by
  have hn1 : (1 : ℚ) ≤ (n : ℚ) := by exact_mod_cast Nat.one_le_iff_ne_zero.mpr hn
  have hub : q * ((n : ℚ) - 1) ≤ (n : ℚ) - 1 := by
    calc q * ((n : ℚ) - 1) ≤ 1 * ((n : ℚ) - 1) :=
          mul_le_mul_of_nonneg_right hq1 (by linarith)
      _ = (n : ℚ) - 1 := one_mul _
  have hfl : (Int.floor (q * ((n : ℚ) - 1))).toNat < n := by
    have h1 : Int.floor (q * ((n : ℚ) - 1)) ≤ Int.floor ((n : ℚ) - 1) :=
      Int.floor_le_floor hub
    have h2 : Int.floor ((n : ℚ) - 1) = (n : ℤ) - 1 := by
      rw [show ((n : ℚ) - 1) = (((n : ℤ) - 1 : ℤ) : ℚ) by push_cast; ring,
        Int.floor_intCast]
    rw [h2] at h1
    omega
  simp only [quantileSorted, List.length_replicate]
  rw [getD_replicate hfl]
  by_cases h2 : (Int.floor (q * ((n : ℚ) - 1))).toNat + 1 < n
  · rw [getD_replicate h2]; ring
  · rw [List.getD_eq_default _ _ (by simpa using Nat.le_of_not_lt h2)]; ring

lemma filterMap_id_map_some (xs : List ℚ) : (xs.map some).filterMap id = xs := by
  rw [List.filterMap_map]
  simp only [Function.id_comp]
  exact List.filterMap_some xs

lemma getD_map_of_lt (l : List ℚ) (g : ℚ → Bool) {i : ℕ} (h : i < l.length) :
    (l.map g).getD i false = g (l.getD i 0) := by
  rw [List.getD_eq_getElem _ _ (by simpa using h), List.getD_eq_getElem _ _ h,
    List.getElem_map]

/-! ## Claim theorems -/

/-- Claim C6: for every numeric series and multiplier `k`,
`detect_outliers_iqr` returns `lower = Q1 − k·IQR` and
`upper = Q3 + k·IQR` (`Q1`/`Q3` the 25th/75th percentiles,
`IQR = Q3 − Q1`) together with a mask flagging exactly the values strictly
outside `[lower, upper]`; and on a constant sequence (IQR = 0) no value is
flagged. -/
theorem c6_detect_outliers_iqr_spec (xs : List ℚ) (k : ℚ) :
    (xs ≠ [] →
      (detect_outliers_iqr (xs.map some) k).2.1 =
          some (seriesQ1 xs - k * (seriesQ3 xs - seriesQ1 xs)) ∧
      (detect_outliers_iqr (xs.map some) k).2.2 =
          some (seriesQ3 xs + k * (seriesQ3 xs - seriesQ1 xs)) ∧
      ∀ i, i < xs.length →
        ((detect_outliers_iqr (xs.map some) k).1.getD i false = true ↔
          ¬(seriesQ1 xs - k * (seriesQ3 xs - seriesQ1 xs) ≤ xs.getD i 0 ∧
            xs.getD i 0 ≤ seriesQ3 xs + k * (seriesQ3 xs - seriesQ1 xs)))) ∧
    (∀ (n : ℕ) (c : ℚ),
      (detect_outliers_iqr (List.replicate n (some c)) k).1 =
        List.replicate n false) := by
  constructor
  · intro hne
    have hxe : xs.isEmpty = false := List.isEmpty_eq_false.mpr hne
    refine ⟨?_, ?_, ?_⟩
    · simp only [detect_outliers_iqr, filterMap_id_map_some, hxe, Bool.false_eq_true,
        if_false, seriesQ1, seriesQ3]
    · simp only [detect_outliers_iqr, filterMap_id_map_some, hxe, Bool.false_eq_true,
        if_false, seriesQ1, seriesQ3]
    · intro i hi
      simp only [detect_outliers_iqr, filterMap_id_map_some, hxe, Bool.false_eq_true,
        if_false, seriesQ1, seriesQ3, List.map_map]
      rw [getD_map_of_lt xs _ hi]
      simp only [Function.comp_apply, Bool.or_eq_true, decide_eq_true_eq]
      rw [not_and_or, not_le, not_le]
  · intro n c
    rcases Nat.eq_zero_or_pos n with hn | hn
    · subst hn; simp [detect_outliers_iqr]
    · have hrep : (List.replicate n (some c)).filterMap id = List.replicate n c := by
        simp [List.filterMap_replicate]
      have hne : (List.replicate n c).isEmpty = false := by
        apply List.isEmpty_eq_false.mpr
        simp [List.replicate_eq_nil_iff]
        omega
      simp only [detect_outliers_iqr, hrep, hne, Bool.false_eq_true, if_false,
        insertionSort_replicate,
        quantileSorted_replicate (Nat.pos_iff_ne_zero.mp hn) c (by norm_num)
          (by norm_num : (1:ℚ)/4 ≤ 1),
        quantileSorted_replicate (Nat.pos_iff_ne_zero.mp hn) c (by norm_num)
          (by norm_num : (3:ℚ)/4 ≤ 1)]
      rw [List.map_replicate]
      have : c - k * (c - c) = c := by ring
      rw [this]
      have h2 : c + k * (c - c) = c := by ring
      rw [h2]
      simp

/-- Claim C6 witness: the spec instantiated on the series `[1,2,3,4,100]` with
multiplier 3, where index 4 (value 100) is strictly above the upper bound. -/
theorem c6_witness :
    (([1, 2, 3, 4, 100] : List ℚ) ≠ []) ∧ (4 < ([1, 2, 3, 4, 100] : List ℚ).length) ∧
    ((detect_outliers_iqr (([1, 2, 3, 4, 100] : List ℚ).map some) 3).1.getD 4 false = true ↔
      ¬(seriesQ1 [1, 2, 3, 4, 100] -
          3 * (seriesQ3 [1, 2, 3, 4, 100] - seriesQ1 [1, 2, 3, 4, 100]) ≤
            ([1, 2, 3, 4, 100] : List ℚ).getD 4 0 ∧
        ([1, 2, 3, 4, 100] : List ℚ).getD 4 0 ≤
          seriesQ3 [1, 2, 3, 4, 100] +
            3 * (seriesQ3 [1, 2, 3, 4, 100] - seriesQ1 [1, 2, 3, 4, 100]))) :=
  ⟨of_decide_eq_true (by with_unfolding_all rfl), by decide,
    ((c6_detect_outliers_iqr_spec [1, 2, 3, 4, 100] 3).1
      (of_decide_eq_true (by with_unfolding_all rfl))).2.2 4 (by decide)⟩

/-- Claim C4: in `clean_transacciones`, delivery times above 90 are capped to
exactly 90 unconditionally, while the outlier flag (multiplier 3) is the
mask of the *original* uncapped column; on `[30,40,50,60,120]` the 120 is
capped to 90 with its flag decided on 120 (the uncapped upper bound is
exactly 120, so the flag is `false`); and on
`[10,10,10,10,10,10,200,300]` the produced flags differ from the mask one
would get from the capped column, so the mask is genuinely computed before
capping. -/
theorem c4_delivery_cap_and_outlier_flags :
    (∀ times : List (Option ℚ),
      (clean_transacciones_delivery times).1 =
        times.map (fun t =>
          match t with
          | some v => if v > 90 then some 90 else some v
          | none => none) ∧
      (clean_transacciones_delivery times).2 = (detect_outliers_iqr times 3).1) ∧
    ((clean_transacciones_delivery
        [some 30, some 40, some 50, some 60, some 120]).1.getD 4 none = some 90 ∧
      (clean_transacciones_delivery
        [some 30, some 40, some 50, some 60, some 120]).2 =
        (detect_outliers_iqr
          [some 30, some 40, some 50, some 60, some 120] 3).1) ∧
    (clean_transacciones_delivery
        [some 10, some 10, some 10, some 10, some 10, some 10, some 200, some 300]).2 ≠
      (detect_outliers_iqr
        ((clean_transacciones_delivery
          [some 10, some 10, some 10, some 10, some 10, some 10, some 200, some 300]).1)
        3).1 := by
  refine ⟨fun times => ⟨rfl, rfl⟩,
    ⟨of_decide_eq_true (by with_unfolding_all rfl),
      of_decide_eq_true (by with_unfolding_all rfl)⟩,
    of_decide_eq_true (by with_unfolding_all rfl)⟩

/-- Claim C9: every row of `clean_feedback`'s output whose original customer
age was already inside `[18, 100]` carries exactly that age in the cleaned
`Edad_Cliente` column: the age pass only rewrites flagged (out-of-range)
ages. -/
theorem c9_valid_ages_unchanged :
    ∀ (df : List FbRow), ∀ r ∈ clean_feedback_ages df, ∀ a : ℚ,
      r.edadOriginal = some a → 18 ≤ a → a ≤ 100 → r.edad = some a := by
  intro df r hr a horig h18 h100
  unfold clean_feedback_ages at hr
  rw [List.mem_map] at hr
  obtain ⟨x, -, rfl⟩ := hr
  simp only at horig ⊢
  have hflag : edadInvalida x.edad = false := by
    rw [horig]
    unfold edadInvalida
    simp only [Bool.or_eq_false_iff, decide_eq_false_iff_not, not_lt]
    exact ⟨h18, h100⟩
  simp only [hflag, Bool.false_eq_true, if_false]
  exact horig

/-- Claim C9 witness: a feedback table with one row of age 42; the cleaned row
keeps age 42. -/
theorem c9_witness :
    ((⟨1, some 42, false, some 42, Segmento.s35_44, 0⟩ : FbRowClean) ∈
        clean_feedback_ages [⟨1, some 42, 0⟩] ∧
      (⟨1, some 42, false, some 42, Segmento.s35_44, 0⟩ : FbRowClean).edadOriginal =
        some 42 ∧ (18 : ℚ) ≤ 42 ∧ (42 : ℚ) ≤ 100) ∧
    (⟨1, some 42, false, some 42, Segmento.s35_44, 0⟩ : FbRowClean).edad = some 42 :=
  ⟨⟨of_decide_eq_true (by with_unfolding_all rfl),
      of_decide_eq_true (by with_unfolding_all rfl),
      of_decide_eq_true (by with_unfolding_all rfl),
      of_decide_eq_true (by with_unfolding_all rfl)⟩,
    c9_valid_ages_unchanged [⟨1, some 42, 0⟩] _
      (of_decide_eq_true (by with_unfolding_all rfl)) 42
      (of_decide_eq_true (by with_unfolding_all rfl))
      (of_decide_eq_true (by with_unfolding_all rfl))
      (of_decide_eq_true (by with_unfolding_all rfl))⟩

lemma hget_append_lt (s : Store) (v : PyVal) {r : ℕ} (h : r < s.length) :
    hget (s ++ [v]) r = hget s r := by
  unfold hget
  rw [List.getD_eq_getElem?_getD, List.getD_eq_getElem?_getD, List.getElem?_append,
    if_pos h]

lemma hget_set_ne (s : Store) {i r : ℕ} (h : i ≠ r) (v : PyVal) :
    hget (s.set i v) r = hget s r := by
  unfold hget
  rw [List.getD_eq_getElem?_getD, List.getD_eq_getElem?_getD, List.getElem?_set_ne h]

lemma st_frame_aux (s : Store) {r : ℕ} (h : r < s.length) (v w : PyVal) :
    hget ((s ++ [v]).set s.length w) r = hget s r := by
  rw [hget_set_ne _ (Nat.ne_of_gt h) w, hget_append_lt _ _ h]

/-- Claim C10: each of `clean_inventario`, `clean_transacciones`,
`clean_feedback` and `create_derived_features` starts with
`df_clean = df.copy()` and mutates only the fresh copy, so the table the
caller's reference points at is unchanged after the call. -/
theorem c10_cleaners_preserve_input (s : Store) (r : ℕ) (h : r < s.length) :
    hget (clean_inventario_st s r).1 r = hget s r ∧
    hget (clean_transacciones_st s r).1 r = hget s r ∧
    hget (clean_feedback_st s r).1 r = hget s r ∧
    hget (create_derived_features_st s r).1 r = hget s r := by
  refine ⟨?_, ?_, ?_, ?_⟩ <;>
    · simp only [clean_inventario_st, clean_transacciones_st, clean_feedback_st,
        create_derived_features_st, halloc, hset]
      rcases hv : hget s r <;>
        simp only [hv, st_frame_aux s h, hget_append_lt s _ h]

/-- Claim C10 witness: a one-cell store holding a feedback table; after each
cleaner the caller's cell still holds the original table. -/
theorem c10_witness :
    (0 < ([PyVal.fbRaw [⟨1, some 30, 0⟩]] : Store).length) ∧
    hget (clean_inventario_st [PyVal.fbRaw [⟨1, some 30, 0⟩]] 0).1 0 =
      hget [PyVal.fbRaw [⟨1, some 30, 0⟩]] 0 ∧
    hget (clean_feedback_st [PyVal.fbRaw [⟨1, some 30, 0⟩]] 0).1 0 =
      hget [PyVal.fbRaw [⟨1, some 30, 0⟩]] 0 :=
  ⟨by decide,
    (c10_cleaners_preserve_input [PyVal.fbRaw [⟨1, some 30, 0⟩]] 0 (by decide)).1,
    (c10_cleaners_preserve_input [PyVal.fbRaw [⟨1, some 30, 0⟩]] 0 (by decide)).2.2.1⟩

/-- Claim C8 code bug: on a feedback table whose only customer age (150) is
out of range, the set of valid ages is empty, pandas' median of the empty
selection is `NaN`, and `clean_feedback` silently writes that `NaN` into
`Edad_Cliente` — it even buckets the row into the `'65+'` segment — instead
of failing with an explicit error as the spec requires. -/
theorem c8_empty_median_silently_imputes_nan :
    clean_feedback_ages [⟨1, some 150, 0⟩] =
      [⟨1, some 150, true, none, Segmento.s65plus, 0⟩] :=
  of_decide_eq_true (by with_unfolding_all rfl)

/-- Claim C2 code bug: `calculate_health_score` on a zero-row table does not
raise — `null_cells` and `duplicates` are numpy `int64` scalars, so the
divisions by `total_cells = 0` and `shape[0] = 0` produce `NaN` under a
`RuntimeWarning` — and the function silently returns a health record whose
completeness, uniqueness and health score are `NaN`. -/
theorem c2_empty_table_returns_nan_record :
    (calculate_health_score 1 []).completitud_pct = none ∧
    (calculate_health_score 1 []).unicidad_pct = none ∧
    (calculate_health_score 1 []).health_score = none ∧
    (calculate_health_score 1 []).validez_pct = 100 :=
  of_decide_eq_true (by with_unfolding_all rfl)

lemma filter_length_le_one {α β : Type} [DecidableEq β] (key : α → β) (l : List α)
    (h : (l.map key).Nodup) (s : β) :
    (l.filter (fun x => key x = s)).length ≤ 1 := by
  induction l with
  | nil => simp
  | cons a tl ih =>
    simp only [List.map_cons, List.nodup_cons] at h
    obtain ⟨hna, hnd⟩ := h
    by_cases hk : key a = s
    · rw [List.filter_cons_of_pos (by simpa using hk)]
      have hnil : tl.filter (fun x => decide (key x = s)) = [] := by
        rw [List.filter_eq_nil_iff]
        intro x hx hxk
        exact hna (List.mem_map.mpr ⟨x, hx, by
          rw [decide_eq_true_iff] at hxk
          rw [hxk, hk]⟩)
      simp [hnil]
    · rw [List.filter_cons_of_neg (by simpa using hk)]
      exact ih hnd

lemma leftJoin_length {α β γ : Type} [DecidableEq β] (left : List α) (right : List γ)
    (lk : α → β) (rk : γ → β)
    (h : ∀ b, (right.filter (fun c => rk c = b)).length ≤ 1) :
    (leftJoin left right lk rk).length = left.length := by
  induction left with
  | nil => rfl
  | cons a tl ih =>
    have hstep : (if (right.filter (fun c => rk c = lk a)).isEmpty
        then [(a, (none : Option γ))]
        else (right.filter (fun c => rk c = lk a)).map (fun c => (a, some c))).length
          = 1 := by
      by_cases he : (right.filter (fun c => rk c = lk a)).isEmpty
      · rw [if_pos he]; rfl
      · rw [if_neg he, List.length_map]
        have h1 := h (lk a)
        have h0 : (right.filter (fun c => rk c = lk a)).length ≠ 0 := by
          intro h0
          exact he (List.isEmpty_iff.mpr (List.length_eq_zero.mp h0))
        omega
    simp only [leftJoin, List.flatMap_cons, List.length_append, List.length_cons] at ih ⊢
    rw [hstep, ih]
    omega

/-- Claim C1 amended: the integrated table has exactly one row per cleaned
transaction *provided* the cleaned inventory has no duplicate `SKU_ID` and
the cleaned feedback has no duplicate `Transaccion_ID`.  (The cleaners do
not guarantee this: they deduplicate exact rows and `Feedback_ID` only, so
key uniqueness is a caller obligation, as §4.6 of the spec itself notes.) -/
theorem c1_rowcount_with_unique_keys (df_inventario : List InvRow)
    (df_transacciones : List TransRow) (df_feedback : List FeedRow)
    (hinv : (df_inventario.map InvRow.sku).Nodup)
    (hfb : (df_feedback.map FeedRow.tid).Nodup) :
    (merge_datasets df_inventario df_transacciones df_feedback).1.length =
      df_transacciones.length := by
  simp only [merge_datasets, List.length_map]
  rw [leftJoin_length _ _ _ _ (fun b => filter_length_le_one FeedRow.tid df_feedback hfb b),
    leftJoin_length _ _ _ _ (fun b => filter_length_le_one InvRow.sku df_inventario hinv b)]

/-- Claim C1 counterexample: an inventory with two *distinct* rows sharing one
`SKU_ID` survives the cleaner's exact-row deduplication unchanged (it is a
fixed point of `drop_duplicates`), yet merging one matching transaction
against it yields 2 integrated rows for 1 transaction — the left join
duplicates the transaction, refuting the claimed unconditional invariant. -/
theorem c1_counterexample :
    dedupFirst [(⟨1, 10⟩ : InvRow), ⟨1, 20⟩] = [⟨1, 10⟩, ⟨1, 20⟩] ∧
    (merge_datasets [(⟨1, 10⟩ : InvRow), ⟨1, 20⟩] [⟨5, 1, 0⟩] []).1.length = 2 ∧
    ([(⟨5, 1, 0⟩ : TransRow)]).length = 1 ∧ (2 : ℕ) ≠ 1 := by
  refine ⟨of_decide_eq_true (by with_unfolding_all rfl),
    of_decide_eq_true (by with_unfolding_all rfl), by decide, by decide⟩

/-- Claim C1 witness: with unique inventory SKUs and unique feedback
transaction keys, two transactions (one of them a ghost SKU, one with
feedback) produce exactly two integrated rows. -/
theorem c1_witness :
    ((([(⟨1, 10⟩ : InvRow)]).map InvRow.sku).Nodup ∧
      (([(⟨7, 5, 0⟩ : FeedRow)]).map FeedRow.tid).Nodup) ∧
    (merge_datasets [(⟨1, 10⟩ : InvRow)] [⟨5, 1, 0⟩, ⟨6, 2, 1⟩] [⟨7, 5, 0⟩]).1.length =
      ([(⟨5, 1, 0⟩ : TransRow), ⟨6, 2, 1⟩]).length :=
  ⟨⟨by decide, by decide⟩,
    c1_rowcount_with_unique_keys [⟨1, 10⟩] [⟨5, 1, 0⟩, ⟨6, 2, 1⟩] [⟨7, 5, 0⟩]
      (by decide) (by decide)⟩

/-- Claim C3 amended: per integrated row with non-null price `p` and
quantity `q`: revenue `= p·q`; total cost `= fillna0(unit cost)·q +
fillna0(shipping)`; total margin `= revenue − total cost`; negative-margin
flag `= (total margin < 0)`; and margin percent `= margin/revenue·100` when
revenue is *strictly positive*, else `0` (the 0 branch covers zero,
negative and missing revenue — not only revenue `= 0`).  The claim's
concrete example (price 100, quantity 2, unit cost 30, shipping 10,
non-ghost) yields revenue 200, total cost 70, margin 130, margin% 65,
flag false. -/
theorem c3_derived_features_formulas :
    (∀ (r : IntRow) (p q : ℚ), r.precio = some p → r.cantidad = some q →
      (create_derived_features r).ingresoTotal = some (p * q) ∧
      (create_derived_features r).costoTotal =
        some (fillna0 r.costoUnit * q + fillna0 r.costoEnvio) ∧
      (create_derived_features r).margenTotal =
        some (p * q - (fillna0 r.costoUnit * q + fillna0 r.costoEnvio)) ∧
      (create_derived_features r).margenNegativo =
        decide (p * q - (fillna0 r.costoUnit * q + fillna0 r.costoEnvio) < 0) ∧
      (create_derived_features r).margenPorcentaje =
        some (if p * q > 0 then
          (p * q - (fillna0 r.costoUnit * q + fillna0 r.costoEnvio)) / (p * q) * 100
        else 0)) ∧
    ((create_derived_features
        ⟨some 100, some 2, some 30, some 10, false, none, none⟩).ingresoTotal =
          some 200 ∧
      (create_derived_features
        ⟨some 100, some 2, some 30, some 10, false, none, none⟩).costoTotal =
          some 70 ∧
      (create_derived_features
        ⟨some 100, some 2, some 30, some 10, false, none, none⟩).margenTotal =
          some 130 ∧
      (create_derived_features
        ⟨some 100, some 2, some 30, some 10, false, none, none⟩).margenPorcentaje =
          some 65 ∧
      (create_derived_features
        ⟨some 100, some 2, some 30, some 10, false, none, none⟩).margenNegativo =
          false) := by
  constructor
  · intro r p q hp hq
    refine ⟨?_, ?_, ?_, ?_, ?_⟩ <;>
      simp only [create_derived_features, optMul, optAdd, optSub, hp, hq]
    split_ifs <;> rfl
  · exact of_decide_eq_true (by with_unfolding_all rfl)

/-- Claim C3 counterexample: a row with price −5 and quantity 1 (revenue −5,
nonzero) gets margin percent `0` from the code, while the claim's formula
`margin/revenue×100` demands `100` — the code's zero branch triggers for
all non-positive revenue, not only revenue = 0. -/
theorem c3_counterexample :
    (create_derived_features
      ⟨some (-5), some 1, none, none, true, none, none⟩).ingresoTotal = some (-5) ∧
    (create_derived_features
      ⟨some (-5), some 1, none, none, true, none, none⟩).margenTotal = some (-5) ∧
    (create_derived_features
      ⟨some (-5), some 1, none, none, true, none, none⟩).margenPorcentaje = some 0 ∧
    ((-5 : ℚ) ≠ 0) ∧ ((-5 : ℚ) / (-5) * 100 = 100) ∧
    some ((-5 : ℚ) / (-5) * 100) ≠ some (0 : ℚ) := by
  refine ⟨of_decide_eq_true (by with_unfolding_all rfl),
    of_decide_eq_true (by with_unfolding_all rfl),
    of_decide_eq_true (by with_unfolding_all rfl),
    by norm_num, by norm_num, by norm_num⟩

/-- Claim C3 witness: the amended formulas instantiated on the claim's own
example row. -/
theorem c3_witness :
    ((⟨some 100, some 2, some 30, some 10, false, none, none⟩ : IntRow).precio =
        some 100 ∧
      (⟨some 100, some 2, some 30, some 10, false, none, none⟩ : IntRow).cantidad =
        some 2) ∧
    (create_derived_features
        ⟨some 100, some 2, some 30, some 10, false, none, none⟩).ingresoTotal =
      some (100 * 2) :=
  ⟨⟨rfl, rfl⟩,
    (c3_derived_features_formulas.1
      ⟨some 100, some 2, some 30, some 10, false, none, none⟩ 100 2 rfl rfl).1⟩

lemma sum_map_add (l : List ℕ) (f g : ℕ → ℕ) :
    (l.map (fun x => f x + g x)).sum = (l.map f).sum + (l.map g).sum := by
  induction l with
  | nil => rfl
  | cons a tl ih =>
    simp only [List.map_cons, List.sum_cons, ih]
    omega

lemma row_null_count (r : List (Option ℚ)) :
    ((List.range r.length).map
      (fun j => if (r.getD j (some 0)).isNone then 1 else 0)).sum =
      r.countP (fun c => c.isNone) := by
  induction r with
  | nil => rfl
  | cons c tl ih =>
    rw [List.length_cons, List.range_succ_eq_map, List.map_cons, List.sum_cons,
      List.map_map]
    have hcomp :
        ((fun j => if (((c :: tl).getD j (some 0)).isNone : Bool) then 1 else 0) ∘
          Nat.succ) =
        fun j => if ((tl.getD j (some 0)).isNone : Bool) then 1 else 0 := rfl
    rw [hcomp, ih, List.countP_cons]
    cases hc : c.isNone with
    | false => simp [hc]
    | true => simp [hc, Nat.add_comm]

lemma colsum_eq_totalNullCells {ncols : ℕ} (rows : Table)
    (hrect : ∀ r ∈ rows, r.length = ncols) :
    ((List.range ncols).map (nullsInCol rows)).sum = totalNullCells rows := by
  induction rows with
  | nil =>
    have h0 : nullsInCol ([] : Table) = fun _ => 0 := by
      funext j
      rfl
    rw [h0]
    simp [totalNullCells, List.map_const', List.sum_replicate]
  | cons r tl ih =>
    have hr : r.length = ncols := hrect r (List.mem_cons_self r tl)
    have htl : ∀ x ∈ tl, x.length = ncols := fun x hx =>
      hrect x (List.mem_cons_of_mem _ hx)
    have hcol : ∀ j ∈ List.range ncols, nullsInCol (r :: tl) j =
        nullsInCol tl j + (if ((r.getD j (some 0)).isNone : Bool) then 1 else 0) := by
      intro j _
      unfold nullsInCol
      rw [List.countP_cons]
    rw [List.map_congr_left hcol, sum_map_add, ih htl]
    have hrow : ((List.range ncols).map
        (fun j => if ((r.getD j (some 0)).isNone : Bool) then 1 else 0)).sum =
        r.countP (fun c => c.isNone) := by
      rw [← hr]
      exact row_null_count r
    rw [hrow]
    simp only [totalNullCells, List.map_cons, List.sum_cons]
    omega

/-- Claim C7: on a table with at least one row and one column,
`calculate_health_score` reports completeness
`= (cells − nulls)/cells × 100`, uniqueness `= (rows − duplicates)/rows ×
100`, validity fixed at 100, and health score `= 0.4·completeness +
0.3·uniqueness + 0.3·validity`, the reported values rounded to two
decimals (the health score is combined from the *unrounded* sub-scores). -/
theorem c7_health_score_formulas (ncols : ℕ) (rows : Table)
    (hrows : 0 < rows.length) (hcols : 0 < ncols)
    (hrect : ∀ r ∈ rows, r.length = ncols) :
    (calculate_health_score ncols rows).completitud_pct =
      some (round2 ((((rows.length * ncols : ℕ) : ℚ) - (totalNullCells rows : ℚ)) /
        ((rows.length * ncols : ℕ) : ℚ) * 100)) ∧
    (calculate_health_score ncols rows).unicidad_pct =
      some (round2 (((rows.length : ℚ) - (duplicatedCount rows : ℚ)) /
        (rows.length : ℚ) * 100)) ∧
    (calculate_health_score ncols rows).validez_pct = 100 ∧
    (calculate_health_score ncols rows).health_score =
      some (round2
        (0.4 * ((((rows.length * ncols : ℕ) : ℚ) - (totalNullCells rows : ℚ)) /
            ((rows.length * ncols : ℕ) : ℚ) * 100) +
          0.3 * (((rows.length : ℚ) - (duplicatedCount rows : ℚ)) /
            (rows.length : ℚ) * 100) +
          0.3 * 100)) := by
  have hcells : ((rows.length * ncols : ℕ) : ℚ) ≠ 0 := by
    rw [Nat.cast_ne_zero]
    exact Nat.mul_ne_zero hrows.ne' hcols.ne'
  have hlen : ((rows.length : ℕ) : ℚ) ≠ 0 := Nat.cast_ne_zero.mpr hrows.ne'
  have hnull := colsum_eq_totalNullCells rows hrect
  have h100 : round2 100 = 100 := by
    unfold round2 roundHalfEven
    rw [show (100 : ℚ) * 100 = ((10000 : ℤ) : ℚ) by norm_num, Int.floor_intCast]
    norm_num
  refine ⟨?_, ?_, ?_, ?_⟩ <;>
    simp only [calculate_health_score, npDiv, hcells, hlen, if_neg, if_false,
      hnull, Option.map_some', optAdd, optMul]
  all_goals first
    | rfl
    | exact h100
    | (congr 1; ring)

/-- Claim C7 witness: a 3×2 table with two null cells and one duplicated row;
completeness and uniqueness are both 66.67 and the health score 76.67. -/
theorem c7_witness :
    (0 < ([[some 1, none], [some 1, none], [some 1, some 2]] : Table).length ∧
      0 < 2 ∧
      ∀ r ∈ ([[some 1, none], [some 1, none], [some 1, some 2]] : Table),
        r.length = 2) ∧
    (calculate_health_score 2
        [[some 1, none], [some 1, none], [some 1, some 2]]).unicidad_pct =
      some (round2
        (((([[some (1:ℚ), none], [some 1, none], [some 1, some 2]] : Table).length : ℚ) -
          (duplicatedCount
            ([[some (1:ℚ), none], [some 1, none], [some 1, some 2]] : Table) : ℚ)) /
          (([[some (1:ℚ), none], [some 1, none], [some 1, some 2]] : Table).length : ℚ) *
          100)) :=
  ⟨⟨by decide, by decide, by decide⟩,
    (c7_health_score_formulas 2 [[some 1, none], [some 1, none], [some 1, some 2]]
      (by decide) (by decide) (by decide)).2.1⟩

lemma digit_ne {c : Char} (h : c.isDigit = true) {d : Char}
    (hd : d.isDigit = false) : c ≠ d := by
  rintro rfl
  simp [h] at hd

lemma toLower_digit {c : Char} (h : c.isDigit = true) : c.toLower = c := by
  have h3 : c.toNat ≤ 57 := by
    unfold Char.isDigit at h
    exact of_decide_eq_true ((Bool.and_eq_true _ _).mp h).2
  simp only [Char.toLower]
  rw [if_neg]
  rintro ⟨ha, -⟩
  omega

lemma pyLower_digits {ds : List Char} (h : ∀ c ∈ ds, c.isDigit = true) :
    pyLower ds = ds := by
  unfold pyLower
  rw [List.map_congr_left (fun c hc => toLower_digit (h c hc))]
  exact List.map_id ds

lemma pyIsSpace_digit {c : Char} (h : c.isDigit = true) : pyIsSpace c = false := by
  unfold pyIsSpace
  have h1 : c ≠ ' ' := digit_ne h (by decide)
  have h2 : c ≠ '\t' := digit_ne h (by decide)
  have h3 : c ≠ '\n' := digit_ne h (by decide)
  have h4 : c ≠ '\r' := digit_ne h (by decide)
  have h5 : c ≠ '\x0b' := digit_ne h (by decide)
  have h6 : c ≠ '\x0c' := digit_ne h (by decide)
  simp [h1, h2, h3, h4, h5, h6]

lemma pyStrip_of_no_space {ds : List Char} (h : ∀ c ∈ ds, pyIsSpace c = false) :
    pyStrip ds = ds := by
  unfold pyStrip
  have h1 : ds.dropWhile pyIsSpace = ds := by
    rw [List.dropWhile_eq_self_iff]
    intro hl
    rw [h _ (List.get_mem ds 0 hl)]
    simp
  rw [h1]
  have h2 : ds.reverse.dropWhile pyIsSpace = ds.reverse := by
    rw [List.dropWhile_eq_self_iff]
    intro hl
    rw [h _ (List.mem_reverse.mp (List.get_mem ds.reverse 0 hl))]
    simp
  rw [h2, List.reverse_reverse]

lemma digits_not_mem {ds : List Char} (h : ∀ c ∈ ds, c.isDigit = true)
    {d : Char} (hd : d.isDigit = false) : d ∉ ds := by
  intro hmem
  exact digit_ne (h d hmem) hd rfl

lemma pyFloat_digits {ds : List Char} (hne : ds ≠ [])
    (h : ∀ c ∈ ds, c.isDigit = true) : pyFloat ds = some (natOfDigits ds) := by
  have hstrip : pyStrip ds = ds :=
    pyStrip_of_no_space (fun c hc => pyIsSpace_digit (h c hc))
  have htake : ds.takeWhile Char.isDigit = ds := List.takeWhile_eq_self_iff.mpr h
  have hdrop : ds.dropWhile Char.isDigit = [] := List.dropWhile_eq_nil_iff.mpr h
  obtain ⟨d, tl, rfl⟩ := List.exists_cons_of_ne_nil hne
  have hd := h d (List.mem_cons_self d tl)
  have hdashf : ('-').isDigit = false := by decide
  have hplusf : ('+').isDigit = false := by decide
  have hsign : pySign (d :: tl) = (false, d :: tl) := by
    show (if d = '-' then (true, tl)
      else if d = '+' then (false, tl) else (false, d :: tl)) = (false, d :: tl)
    rw [if_neg (digit_ne hd hdashf), if_neg (digit_ne hd hplusf)]
  simp only [pyFloat, hstrip, hsign, htake, hdrop]
  rw [if_neg (by simp)]
  simp [natOfDigits]

lemma parse_lead_time_digits {ds : List Char} (hne : ds ≠ [])
    (h : ∀ c ∈ ds, c.isDigit = true) :
    parse_lead_time (some ds) = some (natOfDigits ds) := by
  have hlow : pyLower ds = ds := pyLower_digits h
  have hstrip : pyStrip ds = ds :=
    pyStrip_of_no_space (fun c hc => pyIsSpace_digit (h c hc))
  have hnan : ds ≠ ['n', 'a', 'n'] := by
    rintro rfl
    exact absurd (h 'n' (List.mem_cons_self _ _)) (by decide)
  have hnone : ds ≠ ['n', 'o', 'n', 'e'] := by
    rintro rfl
    exact absurd (h 'n' (List.mem_cons_self _ _)) (by decide)
  have hinm : ds ≠ ['i', 'n', 'm', 'e', 'd', 'i', 'a', 't', 'o'] := by
    rintro rfl
    exact absurd (h 'i' (List.mem_cons_self _ _)) (by decide)
  have hdash : ds.contains '-' = false := by
    rw [Bool.eq_false_iff]
    intro hc
    exact digits_not_mem h (by decide) (List.elem_iff.mp hc)
  simp only [parse_lead_time, hlow, hstrip]
  rw [if_neg (by simp [hnan, hnone, hne]), if_neg hinm, hdash]
  simp only [Bool.false_eq_true, if_false]
  exact pyFloat_digits hne h

lemma imputeTwoStage_getD (rows : List (ℤ × Option ℚ)) (i : ℕ)
    (h : i < rows.length) :
    (imputeTwoStage rows).getD i (0, none) =
      ((rows.getD i (0, none)).1,
        imputedValue rows (rows.getD i (0, none)).1 (rows.getD i (0, none)).2) := by
  have h2 : i < (imputeTwoStage rows).length := by
    simp only [imputeTwoStage, List.length_map]
    exact h
  rw [List.getD_eq_getElem _ _ h2, List.getD_eq_getElem _ _ h]
  simp only [imputeTwoStage, List.getElem_map]
  cases hv : rows[i].2 with
  | none =>
    simp only [hv, Option.none_orElse, imputedValue]
    cases hm : catMedian rows rows[i].1 with
    | none =>
      simp only [hm, Option.none_orElse]
      rfl
    | some m => simp only [hm, Option.some_orElse]
  | some v => simp only [hv, Option.some_orElse, imputedValue]

/-- Claim C5: `clean_inventario` parses lead-time text as: the literal
`'inmediato'` → 1; a range `A-B` → the mean of `A` and `B` (`"25-30 días"`
→ 27.5); a plain number string → that number; unparsable or absent →
missing; and then fills missing values first with the per-category median
and second, for the still-missing, with the global median, in that order. -/
theorem c5_lead_time_parse_and_impute :
    parse_lead_time (some ['i', 'n', 'm', 'e', 'd', 'i', 'a', 't', 'o']) = some 1 ∧
    parse_lead_time (some ['2', '5', '-', '3', '0', ' ', 'd', 'í', 'a', 's']) =
      some (55 / 2) ∧
    (∀ ds : List Char, ds ≠ [] → (∀ c ∈ ds, c.isDigit = true) →
      parse_lead_time (some ds) = some (natOfDigits ds)) ∧
    (parse_lead_time (some ['x', 'y']) = none ∧ parse_lead_time none = none) ∧
    (∀ (df : List InvLtRow) (i : ℕ),
      i < ((dedupFirst df).map (fun r => (r.cat, parse_lead_time r.lt))).length →
      (clean_inventario_lead_time df).getD i (0, none) =
        ((((dedupFirst df).map
            (fun r => (r.cat, parse_lead_time r.lt))).getD i (0, none)).1,
          imputedValue
            ((dedupFirst df).map (fun r => (r.cat, parse_lead_time r.lt)))
            (((dedupFirst df).map
              (fun r => (r.cat, parse_lead_time r.lt))).getD i (0, none)).1
            (((dedupFirst df).map
              (fun r => (r.cat, parse_lead_time r.lt))).getD i (0, none)).2)) := by
  refine ⟨?_, ?_, fun ds hne h => parse_lead_time_digits hne h, ⟨?_, rfl⟩, ?_⟩
  · exact of_decide_eq_true (by with_unfolding_all rfl)
  · exact of_decide_eq_true (by with_unfolding_all rfl)
  · exact of_decide_eq_true (by with_unfolding_all rfl)
  · intro df i hi
    exact imputeTwoStage_getD _ i hi

/-- Claim C5 witness: the plain-number case at `"42"` and the imputation at a
three-row inventory (categories 0, 0, 1; only the first row has a parsed
lead time). -/
theorem c5_witness :
    ((['4', '2'] : List Char) ≠ [] ∧ (∀ c ∈ (['4', '2'] : List Char), c.isDigit = true)) ∧
    parse_lead_time (some ['4', '2']) = some (natOfDigits ['4', '2']) ∧
    ((1 : ℕ) <
      ((dedupFirst [(⟨0, some ['7']⟩ : InvLtRow), ⟨0, none⟩, ⟨1, none⟩]).map
        (fun r => (r.cat, parse_lead_time r.lt))).length ∧
    (clean_inventario_lead_time
        [(⟨0, some ['7']⟩ : InvLtRow), ⟨0, none⟩, ⟨1, none⟩]).getD 1 (0, none) =
      ((((dedupFirst [(⟨0, some ['7']⟩ : InvLtRow), ⟨0, none⟩, ⟨1, none⟩]).map
          (fun r => (r.cat, parse_lead_time r.lt))).getD 1 (0, none)).1,
        imputedValue
          ((dedupFirst [(⟨0, some ['7']⟩ : InvLtRow), ⟨0, none⟩, ⟨1, none⟩]).map
            (fun r => (r.cat, parse_lead_time r.lt)))
          (((dedupFirst [(⟨0, some ['7']⟩ : InvLtRow), ⟨0, none⟩, ⟨1, none⟩]).map
            (fun r => (r.cat, parse_lead_time r.lt))).getD 1 (0, none)).1
          (((dedupFirst [(⟨0, some ['7']⟩ : InvLtRow), ⟨0, none⟩, ⟨1, none⟩]).map
            (fun r => (r.cat, parse_lead_time r.lt))).getD 1 (0, none)).2)) :=
  ⟨⟨by decide, by decide⟩,
    c5_lead_time_parse_and_impute.2.2.1 ['4', '2'] (by decide) (by decide),
    of_decide_eq_true (by with_unfolding_all rfl),
    c5_lead_time_parse_and_impute.2.2.2.2
      [(⟨0, some ['7']⟩ : InvLtRow), ⟨0, none⟩, ⟨1, none⟩] 1
      (of_decide_eq_true (by with_unfolding_all rfl))⟩

end TechLogistics
